import Mathlib

/-!
Shallow embedding of the Oclean BLE integration core
(custom_components/oclean_ble/{parser, coordinator, const}.py).

Conventions of the embedding:
* a Python `bytes` object is a `List Nat` of byte values;
* a Python dict used as a decoded field mapping is a `Fragment`
  (association list queried only through `fget`, which returns the
  first binding, so `new ++ old` is the dict overlay `{**old, **new}`);
* Python exceptions that the source catches are modelled by `Option`;
  the one exception path the source does NOT catch (the `int()` cast in
  the JSON fallback) is modelled by `Except`;
* machine integers are `Nat`/`Int`; byte extraction is explicit.
-/

namespace Oclean

/-! ## Values and field mappings -/

/-- A JSON value as produced by `json.loads` (model of the Python stdlib). -/
inductive JsonVal where
  | num (q : ℚ)
  | str (s : String)
  | bool (b : Bool)
  | null
  | arr (l : List JsonVal)
  | obj (l : List (String × JsonVal))

/-- Canonical field names (the DATA_* string constants of const.py). -/
inductive FieldKey where
  | battery
  | last_brush_score
  | last_brush_duration
  | last_brush_pressure
  | last_brush_time
  | last_brush_areas
  | last_brush_scheme_type
  | last_brush_pnum
  | brush_head_usage
  | model_id
  | hw_revision
  | sw_version
  deriving DecidableEq

/-- A Python value stored in a decoded fragment / snapshot dict.
`null` models Python `None`; `raw` keeps a JSON value that the source
stores untouched (arrays, objects, booleans from the JSON fallback). -/
inductive Value where
  | int (n : ℤ)
  | rat (q : ℚ)
  | str (s : String)
  | areas (m : List (String × ℤ))
  | null
  | raw (j : JsonVal)

/-- A decoded field mapping (Python dict keyed by canonical field name).
Queried only through `fget` (first binding wins), so appending on the
left is the dict-overlay operation. -/
abbrev Fragment := List (FieldKey × Value)

/-- Dict lookup: `d.get(k)`. -/
def fget (f : Fragment) (k : FieldKey) : Option Value :=
  (f.find? (fun kv => decide (kv.1 = k))).map (fun kv => kv.2)

/-- Dict overlay `{**base, **new}` / `base.update(new)`, observed through `fget`. -/
def fmerge (base new : Fragment) : Fragment := new ++ base

/-- Dict single-key assignment `d[k] = v`, observed through `fget`. -/
def fset (f : Fragment) (k : FieldKey) (v : Value) : Fragment := (k, v) :: f

/-- `d.get("last_brush_time")` when the stored value is an int
(the only case the source ever produces on the binary paths). -/
def fgetTs (f : Fragment) : Option ℤ :=
  match fget f .last_brush_time with
  | some (.int n) => some n
  | _ => none

/-- `s.get("last_brush_time", 0)` for a session record. -/
def sessTs (f : Fragment) : ℤ := (fgetTs f).getD 0

/-! ## Arithmetic helpers (Python `round`, signed bytes) -/

/-- Python `round` to an integer: round half to even (model in exact
rational arithmetic; the source applies it to small exact quotients). -/
def roundHalfEven (q : ℚ) : ℤ :=
  let n := ⌊q⌋
  let r := q - (n : ℚ)
  if r < 1/2 then n
  else if 1/2 < r then n + 1
  else if n % 2 = 0 then n else n + 1

/-- Python `round(x, 2)`. -/
def pyRound2 (q : ℚ) : ℚ := (roundHalfEven (q * 100) : ℚ) / 100

/-- parser._parse_signed_byte: one byte as signed int8. -/
def parse_signed_byte (v : ℕ) : ℤ := if v < 128 then (v : ℤ) else (v : ℤ) - 256

/-! ## Bytes -/

abbrev Bytes := List ℕ

/-- `data[i]` under a caller-established bound (all source accesses are
guarded by length checks or a caught IndexError). -/
def byteAt (b : Bytes) (i : ℕ) : ℕ := b.getD i 0

/-- Python slice `data[i:j]`. -/
def bslice (b : Bytes) (i j : ℕ) : Bytes := (b.drop i).take (j - i)

/-! ## Device-local date/time (parser._device_datetime and friends) -/

/-- parser._MIN_YEAR: earliest plausible session year. -/
def MIN_YEAR : ℕ := 2015

def isLeapYear (y : ℕ) : Bool :=
  y % 4 == 0 && (y % 100 != 0 || y % 400 == 0)

def daysInMonth (y m : ℕ) : ℕ :=
  if m = 2 then (if isLeapYear y then 29 else 28)
  else if m = 4 ∨ m = 6 ∨ m = 9 ∨ m = 11 then 30
  else 31

/-- A validated device-local datetime (Python `datetime.datetime`). -/
structure DeviceDT where
  year : ℕ
  month : ℕ
  day : ℕ
  hour : ℕ
  minute : ℕ
  second : ℕ

/-- parser._device_datetime: builds a device-local datetime from a
year-2000-encoded byte.  `none` models the ValueError raised either by
the explicit year floor check or by `datetime.datetime` range
validation (month 13, Feb 29 in a non-leap year, hour 24, ...);
every caller catches it. -/
def device_datetime (yearByte month day hour minute second : ℕ) :
    Option DeviceDT :=
  let year := yearByte + 2000
  if year < MIN_YEAR then none
  else if 1 ≤ month ∧ month ≤ 12 ∧ 1 ≤ day ∧ day ≤ daysInMonth year month
      ∧ hour ≤ 23 ∧ minute ≤ 59 ∧ second ≤ 59 then
    some ⟨year, month, day, hour, minute, second⟩
  else none

/-- Days from 1970-01-01 to a valid civil date with year ≥ 1970
(the year floor guarantees year ≥ 2015). -/
def daysSinceEpoch (y m d : ℕ) : ℕ :=
  let yearDays := (List.range (y - 1970)).foldl
    (fun acc i => acc + (if isLeapYear (1970 + i) then 366 else 365)) 0
  let monthDays := (List.range (m - 1)).foldl
    (fun acc i => acc + daysInMonth y (i + 1)) 0
  yearDays + monthDays + (d - 1)

/-- `calendar.timegm(dt.timetuple())`: POSIX seconds of a civil datetime
read as UTC. -/
def timegm (dt : DeviceDT) : ℤ :=
  (daysSinceEpoch dt.year dt.month dt.day : ℤ) * 86400
    + (dt.hour : ℤ) * 3600 + (dt.minute : ℤ) * 60 + (dt.second : ℤ)

/-- parser._build_utc_timestamp: the source computes
`timegm(device_dt - timedelta(minutes=q*15))`; since `timegm` is the
exact inverse of civil-date arithmetic, subtracting the timedelta first
equals subtracting its seconds from the timestamp. -/
def build_utc_timestamp (dt : DeviceDT) (tzOffsetQuarters : ℤ) : ℤ :=
  timegm dt - tzOffsetQuarters * 15 * 60

/-- `time.mktime(dt.timetuple())`: interprets a civil datetime in the
host's configured local timezone, passed here as an explicit offset in
seconds east of UTC (the source documents this host-timezone dependence
as a limitation of the 0307/5a00 formats). -/
def mktime (hostOffsetS : ℤ) (dt : DeviceDT) : ℤ := timegm dt - hostOffsetS

/-! ## Format decoders (parser.py) -/

/-- const.TOOTH_AREA_NAMES in BrushAreaType enum order. -/
def TOOTH_AREA_NAMES : List String :=
  ["upper_left_out", "upper_left_in", "lower_left_out", "lower_left_in",
   "upper_right_out", "upper_right_in", "lower_right_out", "lower_right_in"]

/-- parser._build_area_stats: (area dict, zones cleaned, average pressure).
Callers always pass exactly 8 bytes. -/
def build_area_stats (areaPressures : Bytes) :
    List (String × ℤ) × ℕ × ℤ :=
  let areaDict := TOOTH_AREA_NAMES.zip (areaPressures.map (fun v => (v : ℤ)))
  let zonesCleaned := (areaPressures.filter (fun v => decide (0 < v))).length
  let avgPressure := roundHalfEven
    ((areaPressures.foldl (fun a v => a + v) 0 : ℚ) / (areaPressures.length : ℚ))
  (areaDict, zonesCleaned, avgPressure)

/-- parser._parse_state_response (0303): byte 3 is battery percent,
kept only when in 0..100. -/
def parse_state_response (payload : Bytes) : Fragment :=
  if payload.length < 1 then []
  else if payload.length ≥ 4 ∧ byteAt payload 3 ≤ 100 then
    [(.battery, .int (byteAt payload 3))]
  else []

/-- parser._RUNNING_DATA_MIN_RECORD_SIZE. -/
def RUNNING_DATA_MIN_RECORD_SIZE : ℕ := 18

/-- parser._parse_running_data_record: simple 18-byte 0308 record.
Returns [] when too short or when the datetime is rejected
(the caught ValueError). -/
def parse_running_data_record (data : Bytes) : Fragment :=
  if data.length < RUNNING_DATA_MIN_RECORD_SIZE then []
  else
    match device_datetime (byteAt data 0) (byteAt data 1) (byteAt data 2)
        (byteAt data 3) (byteAt data 4) (byteAt data 5) with
    | none => []
    | some deviceDt =>
      let tzOffsetQuarters := parse_signed_byte (byteAt data 6)
      let bluntTeeth := byteAt data 14 + 256 * byteAt data 15
      let pressureRaw := byteAt data 16 + 256 * byteAt data 17
      let pressure := pyRound2 ((pressureRaw : ℚ) / 300)
      let timestampS := build_utc_timestamp deviceDt tzOffsetQuarters
      [(.last_brush_time, .int timestampS),
       (.last_brush_pressure, .rat pressure),
       (.brush_head_usage, .int bluntTeeth)]

/-- parser._parse_extended_running_data_record: 32+ byte 0308 record. -/
def parse_extended_running_data_record (data : Bytes) : Fragment :=
  if data.length < 32 then []
  else
    match device_datetime (byteAt data 2) (byteAt data 3) (byteAt data 4)
        (byteAt data 5) (byteAt data 6) (byteAt data 7) with
    | none => []
    | some deviceDt =>
      let pNum := byteAt data 8
      let duration := 256 * byteAt data 9 + byteAt data 10
      let tzOffsetQuarters := parse_signed_byte (byteAt data 19)
      let areaPressures := bslice data 20 28
      let score := byteAt data 28
      let schemeType := byteAt data 29
      let timestampS := build_utc_timestamp deviceDt tzOffsetQuarters
      let stats := build_area_stats areaPressures
      [(.last_brush_time, .int timestampS),
       (.last_brush_duration, .int duration),
       (.last_brush_score, .int (min 100 score)),
       (.last_brush_pressure, .int stats.2.2),
       (.last_brush_areas, .areas stats.1),
       (.last_brush_scheme_type, .int schemeType),
       (.last_brush_pnum, .int pNum)]

/-- The extended-layout detection of parser._parse_info_response:
byte 0 equals zero, byte 1 ≥ 32, and the payload is at least that long. -/
def extHeuristic (payload : Bytes) : Prop :=
  payload.length ≥ 2 ∧ byteAt payload 0 = 0 ∧ 32 ≤ byteAt payload 1
    ∧ byteAt payload 1 ≤ payload.length

instance (payload : Bytes) : Decidable (extHeuristic payload) := by
  unfold extHeuristic; infer_instance

/-- parser._parse_info_response (0308): auto-detect extended vs simple
layout.  When the extended heuristic matches, the extended parser's
result is returned as-is (its [] on failure included) and the simple
parser is never consulted; otherwise the simple parser runs (its own []
covers the trailing could-not-parse return). -/
def parse_info_response (payload : Bytes) : Fragment :=
  if extHeuristic payload then
    parse_extended_running_data_record payload
  else
    parse_running_data_record payload

/-- parser._parse_info_t1_response (0307): Type-1 running data; device
local time interpreted via the host timezone (`mktime`). -/
def parse_info_t1_response (hostOffsetS : ℤ) (payload : Bytes) : Fragment :=
  if payload.length < 11 then []
  else
    match device_datetime (byteAt payload 5) (byteAt payload 6) (byteAt payload 7)
        (byteAt payload 8) (byteAt payload 9) (byteAt payload 10) with
    | none => []
    | some deviceDt =>
      let timestampS := mktime hostOffsetS deviceDt
      [(.last_brush_time, .int timestampS),
       (.last_brush_pnum, .int (byteAt payload 0))]

/-- parser._parse_k3guide_response (0340): real-time only, never stored. -/
def parse_k3guide_response (payload : Bytes) : Fragment :=
  if payload.length < 6 then [] else []

/-- parser._handle_device_info_ack (0202): ACK only. -/
def handle_device_info_ack (_payload : Bytes) : Fragment := []

/-- parser._parse_score_t1_response (0000): leading byte is the score;
0xFF is the no-data sentinel; values above 100 are clamped. -/
def parse_score_t1_response (payload : Bytes) : Fragment :=
  if payload.length < 1 then []
  else
    let score := byteAt payload 0
    if score = 0xFF then []
    else [(.last_brush_score, .int (min 100 score))]

/-- parser._parse_session_meta_t1_response (5a00): device-local datetime
at bytes 7-12 plus a duration byte at 15; duration 0 or 0xFF is omitted. -/
def parse_session_meta_t1_response (hostOffsetS : ℤ) (payload : Bytes) : Fragment :=
  if payload.length < 18 then []
  else
    match device_datetime (byteAt payload 7) (byteAt payload 8) (byteAt payload 9)
        (byteAt payload 10) (byteAt payload 11) (byteAt payload 12) with
    | none => []
    | some deviceDt =>
      let timestampS := mktime hostOffsetS deviceDt
      let duration := byteAt payload 15
      if 0 < duration ∧ duration ≠ 0xFF then
        [(.last_brush_time, .int timestampS),
         (.last_brush_duration, .int duration)]
      else
        [(.last_brush_time, .int timestampS)]

/-- parser._parse_brush_areas_t1_response (2604): 8 per-zone pressure
bytes at offsets 6-13. -/
def parse_brush_areas_t1_response (payload : Bytes) : Fragment :=
  if payload.length < 14 then []
  else
    let stats := build_area_stats (bslice payload 6 14)
    [(.last_brush_areas, .areas stats.1),
     (.last_brush_pressure, .int stats.2.2)]

/-- parser._parse_0314_response: diagnostic logging only. -/
def parse_0314_response (_payload : Bytes) : Fragment := []

/-! ## JSON fallback (model of `data.decode("utf-8")` + `json.loads` +
parser._map_json_brush_data)

The stdlib decode/parse pair is modelled on the ASCII subset of UTF-8:
multi-byte sequences, \uXXXX escapes and the NaN/Infinity extensions
are mapped to the decode-failure outcome, which the source catches
(yielding an empty fragment), so the model only under-approximates the
set of payloads reaching `_map_json_brush_data`. -/

/-- `bytes.decode("utf-8")` restricted to ASCII; `none` is the caught
UnicodeDecodeError. -/
def utf8DecodeAscii (b : Bytes) : Option (List Char) :=
  if b.all (fun v => v < 128) then some (b.map Char.ofNat) else none

def isJsonWs (c : Char) : Bool :=
  decide (c = ' ' ∨ c = '\t' ∨ c = '\n' ∨ c = '\r')

def skipWs : List Char → List Char
  | [] => []
  | c :: cs => if isJsonWs c then skipWs cs else c :: cs

def digitsVal (ds : List Char) : ℕ :=
  ds.foldl (fun a c => a * 10 + (c.toNat - 48)) 0

/-- Parse a JSON number (sign, integer part, optional fraction and
exponent) as an exact rational. -/
def parseNumber (cs : List Char) : Option (ℚ × List Char) :=
  let signAndRest : ℚ × List Char :=
    match cs with
    | c :: rest => if c = '-' then (-1, rest) else (1, cs)
    | [] => (1, cs)
  let intSpan := signAndRest.2.span Char.isDigit
  if intSpan.1.isEmpty then none
  else
    let intPart : ℚ := (digitsVal intSpan.1 : ℚ)
    let fracAndRest : ℚ × List Char :=
      match intSpan.2 with
      | c :: rest =>
        if c = '.' then
          let fracSpan := rest.span Char.isDigit
          if fracSpan.1.isEmpty then (0, intSpan.2)
          else ((digitsVal fracSpan.1 : ℚ) / ((10 : ℚ) ^ fracSpan.1.length), fracSpan.2)
        else (0, intSpan.2)
      | [] => (0, intSpan.2)
    let expAndRest : ℤ × List Char :=
      match fracAndRest.2 with
      | c :: rest =>
        if c = 'e' ∨ c = 'E' then
          let signedRest : ℤ × List Char :=
            match rest with
            | s :: r2 => if s = '-' then (-1, r2) else if s = '+' then (1, r2) else (1, rest)
            | [] => (1, rest)
          let expSpan := signedRest.2.span Char.isDigit
          if expSpan.1.isEmpty then (0, fracAndRest.2)
          else (signedRest.1 * (digitsVal expSpan.1 : ℤ), expSpan.2)
        else (0, fracAndRest.2)
      | [] => (0, fracAndRest.2)
    some (signAndRest.1 * (intPart + fracAndRest.1) * (10 : ℚ) ^ expAndRest.1,
          expAndRest.2)

/-- Parse a JSON string body after the opening quote; returns the
characters and the remainder after the closing quote. -/
def parseStringBody : ℕ → List Char → Option (List Char × List Char)
  | 0, _ => none
  | _ + 1, [] => none
  | fuel + 1, c :: cs =>
    if c = '"' then some ([], cs)
    else if c = '\\' then
      match cs with
      | [] => none
      | e :: cs2 =>
        let esc : Option Char :=
          if e = '"' then some '"'
          else if e = '\\' then some '\\'
          else if e = '/' then some '/'
          else if e = 'n' then some '\n'
          else if e = 't' then some '\t'
          else if e = 'r' then some '\r'
          else if e = 'b' then some (Char.ofNat 8)
          else if e = 'f' then some (Char.ofNat 12)
          else none
        match esc with
        | none => none
        | some ch => (parseStringBody fuel cs2).map (fun p => (ch :: p.1, p.2))
    else (parseStringBody fuel cs).map (fun p => (c :: p.1, p.2))

mutual

/-- Recursive-descent JSON value parser (fuelled). -/
def parseJsonVal : ℕ → List Char → Option (JsonVal × List Char)
  | 0, _ => none
  | fuel + 1, cs =>
    match skipWs cs with
    | [] => none
    | c :: rest =>
      if c = '"' then
        (parseStringBody (rest.length + 1) rest).map
          (fun p => (JsonVal.str (String.mk p.1), p.2))
      else if c = Char.ofNat 123 then
        match skipWs rest with
        | c2 :: rest2 =>
          if c2 = Char.ofNat 125 then some (JsonVal.obj [], rest2)
          else
            (parseObjMembers fuel (c2 :: rest2)).map
              (fun p => (JsonVal.obj p.1, p.2))
        | [] => none
      else if c = '[' then
        match skipWs rest with
        | c2 :: rest2 =>
          if c2 = ']' then some (JsonVal.arr [], rest2)
          else
            (parseArrElems fuel (c2 :: rest2)).map
              (fun p => (JsonVal.arr p.1, p.2))
        | [] => none
      else if c = 't' then
        match rest with
        | 'r' :: 'u' :: 'e' :: r => some (JsonVal.bool true, r)
        | _ => none
      else if c = 'f' then
        match rest with
        | 'a' :: 'l' :: 's' :: 'e' :: r => some (JsonVal.bool false, r)
        | _ => none
      else if c = 'n' then
        match rest with
        | 'u' :: 'l' :: 'l' :: r => some (JsonVal.null, r)
        | _ => none
      else if c.isDigit ∨ c = '-' then
        (parseNumber (c :: rest)).map (fun p => (JsonVal.num p.1, p.2))
      else none

/-- Object members: `"key" : value (, ...)* closing-brace`. -/
def parseObjMembers : ℕ → List Char → Option (List (String × JsonVal) × List Char)
  | 0, _ => none
  | fuel + 1, cs =>
    match skipWs cs with
    | c :: rest =>
      if c = '"' then
        match parseStringBody (rest.length + 1) rest with
        | none => none
        | some (key, afterKey) =>
          match skipWs afterKey with
          | c2 :: rest2 =>
            if c2 = ':' then
              match parseJsonVal fuel rest2 with
              | none => none
              | some (v, afterVal) =>
                match skipWs afterVal with
                | c3 :: rest3 =>
                  if c3 = ',' then
                    (parseObjMembers fuel rest3).map
                      (fun p => ((String.mk key, v) :: p.1, p.2))
                  else if c3 = Char.ofNat 125 then
                    some ([(String.mk key, v)], rest3)
                  else none
                | [] => none
            else none
          | [] => none
      else none
    | [] => none

/-- Array elements: `value (, ...)* ]`. -/
def parseArrElems : ℕ → List Char → Option (List JsonVal × List Char)
  | 0, _ => none
  | fuel + 1, cs =>
    match parseJsonVal fuel cs with
    | none => none
    | some (v, afterVal) =>
      match skipWs afterVal with
      | c :: rest =>
        if c = ',' then
          (parseArrElems fuel rest).map (fun p => (v :: p.1, p.2))
        else if c = ']' then some ([v], rest)
        else none
      | [] => none

end

/-- `json.loads` on already-decoded text (`none` is the caught
JSONDecodeError).  The source calls `.strip()` first; leading/trailing
whitespace is consumed here directly. -/
def jsonLoads (cs : List Char) : Option JsonVal :=
  match parseJsonVal (cs.length + 1) cs with
  | some (v, rest) => if (skipWs rest).isEmpty then some v else none
  | none => none

/-! ## _map_json_brush_data and the uncaught int() cast -/

/-- Python truncation toward zero (`int(float)`). -/
def pyTrunc (q : ℚ) : ℤ := if 0 ≤ q then ⌊q⌋ else -⌊-q⌋

/-- Python `int(str)`: optional surrounding whitespace, optional sign,
then decimal digits (digit-group underscores are not modelled);
`none` is the ValueError. -/
def pyStrToInt (s : String) : Option ℤ :=
  let cs1 := skipWs s.toList
  let signAndRest : ℤ × List Char :=
    match cs1 with
    | c :: rest => if c = '-' then (-1, rest) else if c = '+' then (1, rest) else (1, cs1)
    | [] => (1, cs1)
  let digitSpan := signAndRest.2.span Char.isDigit
  if digitSpan.1.isEmpty then none
  else if (skipWs digitSpan.2).isEmpty then
    some (signAndRest.1 * (digitsVal digitSpan.1 : ℤ))
  else none

/-- Python `int(x)` on a JSON-decoded value; `none` models the
ValueError / TypeError that `_map_json_brush_data` does NOT catch. -/
def pyIntOfJson : JsonVal → Option ℤ
  | .num q => some (pyTrunc q)
  | .bool b => some (if b then 1 else 0)
  | .str s => pyStrToInt s
  | _ => none

/-- A JSON value stored uncast into the fragment (the `last_brush_time`
entry of `_JSON_KEY_MAP` has `cast_to_int = False`).  JSON integers are
Python ints, so integral numbers map to `Value.int`. -/
def jsonToValue : JsonVal → Value
  | .num q => if q.den = 1 then .int q.num else .rat q
  | .str s => .str s
  | .null => .null
  | j => .raw j

/-- parser._JSON_KEY_MAP: (result key, candidate spellings, cast_to_int). -/
def JSON_KEY_MAP : List (FieldKey × List String × Bool) :=
  [(.last_brush_score, (["score", "brushScore", "brush_score", "totalScore"], true)),
   (.last_brush_duration, (["duration", "brushDuration", "brush_duration", "time"], true)),
   (.last_brush_pressure, (["pressure", "avgPressure", "avg_pressure"], true)),
   (.last_brush_time, (["timestamp", "endTime", "end_time", "brushTime"], false))]

/-- Python dict lookup on the decoded JSON object (later duplicate keys
win, as in `json.loads`). -/
def jsonLookup (o : List (String × JsonVal)) (k : String) : Option JsonVal :=
  (o.reverse.find? (fun kv => kv.1 == k)).map (fun kv => kv.2)

def jsonHasKey (o : List (String × JsonVal)) (k : String) : Bool :=
  o.any (fun kv => kv.1 == k)

/-- Field-by-field walk of `_JSON_KEY_MAP`: first candidate key present
wins; a failing `int()` cast raises (Except.error), which escapes
`parse_notification` because its `except` clause names only
UnicodeDecodeError and json.JSONDecodeError. -/
def mapJsonFieldsGo :
    List (FieldKey × List String × Bool) → List (String × JsonVal) →
    Except String Fragment
  | [], _ => Except.ok []
  | (k, cands, castInt) :: rest, o =>
    match cands.find? (fun c => jsonHasKey o c) with
    | none => mapJsonFieldsGo rest o
    | some c =>
      match jsonLookup o c with
      | none => mapJsonFieldsGo rest o
      | some jv =>
        if castInt then
          match pyIntOfJson jv with
          | none => Except.error ("ValueError: invalid literal for int()")
          | some n =>
            match mapJsonFieldsGo rest o with
            | Except.ok f => Except.ok ((k, Value.int n) :: f)
            | Except.error e => Except.error e
        else
          match mapJsonFieldsGo rest o with
          | Except.ok f => Except.ok ((k, jsonToValue jv) :: f)
          | Except.error e => Except.error e

/-- parser._map_json_brush_data. -/
def map_json_brush_data (o : List (String × JsonVal)) : Except String Fragment :=
  mapJsonFieldsGo JSON_KEY_MAP o

/-! ## Notification router (parser.parse_notification) -/

def RESP_STATE : ℕ × ℕ := (0x03, 0x03)
def RESP_INFO : ℕ × ℕ := (0x03, 0x08)
def RESP_INFO_T1 : ℕ × ℕ := (0x03, 0x07)
def RESP_DEVICE_INFO : ℕ × ℕ := (0x02, 0x02)
def RESP_K3GUIDE : ℕ × ℕ := (0x03, 0x40)

/-- Modelled from the spec: RESP_EXTENDED_T1 is imported by parser.py
from const.py but its definition is not among the provided sources;
the parser docstring fixes the 0314 tag. -/
def RESP_EXTENDED_T1 : ℕ × ℕ := (0x03, 0x14)

/-- Modelled from the spec: RESP_SCORE_T1 is imported by parser.py from
const.py but its definition is not among the provided sources; the
parser docstring and tests fix the 0000 tag. -/
def RESP_SCORE_T1 : ℕ × ℕ := (0x00, 0x00)

/-- Modelled from the spec: RESP_SESSION_META_T1 is imported by
parser.py from const.py but its definition is not among the provided
sources; the parser docstring and tests fix the 5a00 tag. -/
def RESP_SESSION_META_T1 : ℕ × ℕ := (0x5a, 0x00)

/-- Modelled from the spec: RESP_BRUSH_AREAS_T1 is imported by
parser.py from const.py but its definition is not among the provided
sources; the parser docstring and tests fix the 2604 tag. -/
def RESP_BRUSH_AREAS_T1 : ℕ × ℕ := (0x26, 0x04)

/-- parser.parse_notification: dispatch on the 2-byte tag, JSON
fallback, unknown-format sink.  `Except.error` marks the one exception
path the source does not catch (a failing `int()` cast inside the JSON
fallback); every other outcome is `Except.ok`. -/
def parse_notification (hostOffsetS : ℤ) (data : Bytes) :
    Except String Fragment :=
  if data.length < 2 then Except.ok []
  else
    let tag := (byteAt data 0, byteAt data 1)
    let payload := data.drop 2
    if tag = RESP_STATE then Except.ok (parse_state_response payload)
    else if tag = RESP_INFO then Except.ok (parse_info_response payload)
    else if tag = RESP_INFO_T1 then Except.ok (parse_info_t1_response hostOffsetS payload)
    else if tag = RESP_DEVICE_INFO then Except.ok (handle_device_info_ack payload)
    else if tag = RESP_K3GUIDE then Except.ok (parse_k3guide_response payload)
    else if tag = RESP_EXTENDED_T1 then Except.ok (parse_0314_response payload)
    else if tag = RESP_SCORE_T1 then Except.ok (parse_score_t1_response payload)
    else if tag = RESP_SESSION_META_T1 then
      Except.ok (parse_session_meta_t1_response hostOffsetS payload)
    else if tag = RESP_BRUSH_AREAS_T1 then
      Except.ok (parse_brush_areas_t1_response payload)
    else
      match utf8DecodeAscii data with
      | some text =>
        match jsonLoads text with
        | some (JsonVal.obj o) => map_json_brush_data o
        | _ => Except.ok []
      | none => Except.ok []

/-! ## Smart Poll Gate (coordinator._in_window / _poll_skip_reason)

`datetime.time` values compare lexicographically on
(hour, minute, second), i.e. as seconds since midnight, which is the
representation used here. -/

/-- coordinator._in_window. -/
def in_window (start stop now : ℕ) : Bool :=
  if start < stop then decide (start ≤ now ∧ now ≤ stop)
  else decide (now ≥ start ∨ now ≤ stop)

inductive SkipReason where
  | cooldown
  | window
  deriving DecidableEq

/-- coordinator._poll_skip_reason: cooldown first (a zero
`cooldown_until` is falsy and never triggers), then the window check,
which only applies when at least one window is configured. -/
def poll_skip_reason (cooldownUntil nowTs : ℤ) (windows : List (ℕ × ℕ))
    (nowTod : ℕ) : Option SkipReason :=
  if cooldownUntil ≠ 0 ∧ nowTs < cooldownUntil then some SkipReason.cooldown
  else if ¬windows.isEmpty ∧ ¬windows.any (fun w => in_window w.1 w.2 nowTod) then
    some SkipReason.window
  else none

/-! ## Session Accumulator (coordinator._setup_and_read's
notification_handler) -/

/-- Per-cycle mutable state shared by the notification callback:
the cumulative collected-fields dict, the set of session timestamps
already materialized, the session list, and the asyncio.Event flag. -/
structure AccState where
  collected : Fragment
  seenTs : List ℤ
  sessions : List Fragment
  eventSet : Bool

/-- The fresh accumulator state at the start of a poll cycle. -/
def accStart : AccState := ⟨[], [], [], false⟩

/-- Drop the time-correlated fields from a fragment
(the "newer wins" strip). -/
def stripTimeFields (f : Fragment) : Fragment :=
  f.filter (fun kv =>
    decide (kv.1 ≠ FieldKey.last_brush_time ∧ kv.1 ≠ FieldKey.last_brush_duration))

/-- The conditional strip of notification_handler: if the incoming
fragment carries a `last_brush_time` older than the accumulated one
(default 0), remove `last_brush_time` and `last_brush_duration`. -/
def stripIfStale (collected f : Fragment) : Fragment :=
  match fgetTs f with
  | none => f
  | some incomingTs =>
    if incomingTs < (fgetTs collected).getD 0 then stripTimeFields f else f

/-- The body of notification_handler after `parse_notification`
returned `parsed`: skip empty fragments, apply the newer-wins strip,
merge into `collected`, and materialize a Session for a nonzero
not-yet-seen timestamp. -/
def applyParsed (st : AccState) (parsed : Fragment) : AccState :=
  if parsed.isEmpty then st
  else
    let parsed2 := stripIfStale st.collected parsed
    let collected2 := fmerge st.collected parsed2
    let tsv := sessTs parsed2
    if tsv ≠ 0 ∧ tsv ∉ st.seenTs then
      { collected := collected2, seenTs := tsv :: st.seenTs,
        sessions := st.sessions ++ [parsed2], eventSet := true }
    else
      { st with collected := collected2 }

/-- One notification delivery: decode then accumulate.  On the
uncaught-exception outcome the handler dies before mutating anything. -/
def notification_handler_step (hostOffsetS : ℤ) (st : AccState)
    (data : Bytes) : AccState :=
  match parse_notification hostOffsetS data with
  | Except.ok parsed => applyParsed st parsed
  | Except.error _ => st

/-! ## Pagination (coordinator._paginate_sessions) -/

/-- const.MAX_SESSION_PAGES. -/
def MAX_SESSION_PAGES : ℕ := 50

/-- One environment outcome per attempted page: `some recs` means the
0309 write succeeded and the bounded wait was woken after the handler
appended `recs` to the session list; `none` means the write failed or
the wait timed out. -/
abbrev PageOutcome := Option (List Fragment)

/-- The 0309 pagination loop, returning the final session list and the
number of next-page commands issued.  Iteration count mirrors
`range(MAX_SESSION_PAGES - 1)` via the fuel argument. -/
def paginateAux (wm : ℤ) : ℕ → List Fragment → List PageOutcome →
    List Fragment × ℕ
  | 0, ss, _ => (ss, 0)
  | fuel + 1, ss, rs =>
    if ss.isEmpty then (ss, 0)
    else
      let lastTs := sessTs (ss.getLast?.getD [])
      if lastTs ≠ 0 ∧ lastTs ≤ wm then (ss, 0)
      else
        match rs with
        | some recs :: rest =>
          let out := paginateAux wm fuel (ss ++ recs) rest
          (out.1, out.2 + 1)
        | _ => (ss, 1)

/-- coordinator._paginate_sessions against an environment trace. -/
def paginate_sessions (wm : ℤ) (ss : List Fragment)
    (rs : List PageOutcome) : List Fragment × ℕ :=
  paginateAux wm (MAX_SESSION_PAGES - 1) ss rs

/-! ## State Reconciler (coordinator._poll_device lines 395-435 and the
watermark tail of _import_new_sessions) -/

/-- coordinator._PERSISTENT_KEYS (note: last_brush_scheme_type is not
in this tuple in the source). -/
def PERSISTENT_KEYS : List FieldKey :=
  [.battery, .brush_head_usage, .last_brush_score, .last_brush_duration,
   .last_brush_pressure, .last_brush_time, .last_brush_areas,
   .last_brush_pnum, .model_id, .hw_revision, .sw_version]

/-- Coordinator state that survives across poll cycles:
`_last_raw`, `_last_session_ts`, `_brush_head_sw_count`,
`_brush_head_hw_supported`, `_cooldown_until`, and the configured
`_post_brush_cooldown_s`. -/
structure CoordState where
  lastRaw : Fragment
  lastSessionTs : ℤ
  swCount : ℤ
  hwSupported : Bool
  cooldownUntil : ℤ
  postBrushCooldownS : ℤ

/-- Per-cycle inputs: the collected-fields dict and session list
produced by the BLE read, the wall-clock time, and whether the recorder
statistics API is importable (its absence makes _import_new_sessions
return before the watermark update). -/
structure CycleInput where
  collected : Fragment
  sessions : List Fragment
  now : ℤ
  recorderOk : Bool

/-- The sessions classified as "new" against a watermark:
`s.get("last_brush_time", 0) > last_session_ts`. -/
def newSessions (wm : ℤ) (sessions : List Fragment) : List Fragment :=
  sessions.filter (fun s => decide (wm < sessTs s))

/-- Watermark tail of coordinator._import_new_sessions: filter the new
sessions, stop early when none (or when the recorder API is missing),
otherwise advance the watermark to the maximum new timestamp and save.
Returns (new watermark, number of _save_store calls). -/
def importNewSessionsWm (wm : ℤ) (sessions : List Fragment)
    (recorderOk : Bool) : ℤ × ℕ :=
  match (newSessions wm sessions).map sessTs with
  | [] => (wm, 0)
  | t :: ts =>
    if recorderOk then
      let maxTs := ts.foldl max t
      if wm < maxTs then (maxTs, 1) else (wm, 0)
    else (wm, 0)

/-- The merge base seeded from the previous snapshot restricted to the
persistent keys; absent keys are carried as Python `None`
(`{k: last_raw.get(k) for k in _PERSISTENT_KEYS}`). -/
def persistentBase (lastRaw : Fragment) : Fragment :=
  PERSISTENT_KEYS.map (fun k => (k, (fget lastRaw k).getD Value.null))

/-- The collected dict after the software-counter branch: when the
hardware latch (as updated this cycle) is false, the surfaced usage is
the software counter. -/
def collectedAfterCounter (hwNow : Bool) (swNew : ℤ) (collected : Fragment) :
    Fragment :=
  if hwNow then collected
  else fset collected .brush_head_usage (.int swNew)

/-- Result of one successful poll cycle's reconciliation. -/
structure CycleOutput where
  state : CoordState
  merged : Fragment
  saves : ℕ

/-- The hardware latch as updated by this cycle
(`if collected.get(DATA_BRUSH_HEAD_USAGE) is not None:`). -/
def hwAfter (st : CoordState) (inp : CycleInput) : Bool :=
  st.hwSupported || (fget inp.collected .brush_head_usage).isSome

/-- The new-session count of this cycle, computed against the watermark
captured at cycle start. -/
def newCountOf (st : CoordState) (inp : CycleInput) : ℤ :=
  ((newSessions st.lastSessionTs inp.sessions).length : ℤ)

/-- The software counter after this cycle (frozen once the latch is
true, otherwise incremented by the new-session count; the no-new-session
case adds 0). -/
def swAfter (st : CoordState) (inp : CycleInput) : ℤ :=
  if hwAfter st inp then st.swCount else st.swCount + newCountOf st inp

/-- The collected dict at the end of this cycle (after the
software-counter branch). -/
def collectedFinal (st : CoordState) (inp : CycleInput) : Fragment :=
  collectedAfterCounter (hwAfter st inp) (swAfter st inp) inp.collected

/-- coordinator._poll_device lines 395-435 (with the watermark tail of
_import_new_sessions inlined): hardware-latch detection, new-session
count against the watermark captured at cycle start, statistics import,
cooldown arming, software counter, and the carry-forward merge. -/
def pollReconcile (st : CoordState) (inp : CycleInput) : CycleOutput :=
  let hwNow := hwAfter st inp
  let newCount := newCountOf st inp
  let tsSave :=
    if inp.sessions.isEmpty then (st.lastSessionTs, 0)
    else importNewSessionsWm st.lastSessionTs inp.sessions inp.recorderOk
  let cooldownNew :=
    if 0 < newCount ∧ 0 < st.postBrushCooldownS then
      inp.now + st.postBrushCooldownS
    else st.cooldownUntil
  let saveSw : ℕ := if ¬hwNow ∧ 0 < newCount then 1 else 0
  let merged := fmerge (persistentBase st.lastRaw) (collectedFinal st inp)
  { state :=
      { lastRaw := merged, lastSessionTs := tsSave.1, swCount := swAfter st inp,
        hwSupported := hwNow, cooldownUntil := cooldownNew,
        postBrushCooldownS := st.postBrushCooldownS },
    merged := merged,
    saves := tsSave.2 + saveSw }

/-- A sequence of successful poll cycles. -/
def runCycles (st : CoordState) (cycles : List CycleInput) : CoordState :=
  cycles.foldl (fun s i => (pollReconcile s i).state) st

/-! ## Invariants and concrete example inputs used by the theorems -/

/-- Accumulator invariant: every materialized Session carries a nonzero
timestamp recorded in the seen-set, and session timestamps are
pairwise distinct. -/
def accInv (st : AccState) : Prop :=
  (∀ s ∈ st.sessions, sessTs s ≠ 0 ∧ sessTs s ∈ st.seenTs)
  ∧ (st.sessions.map sessTs).Nodup

/-- A payload matching the extended heuristic (byte 0 = 0, byte 1 = 32,
length 32) whose extended parse fails on an impossible month (13). -/
def exBadExtPayload : Bytes := [0, 32, 26, 13, 1, 0, 0, 0] ++ List.replicate 24 0

/-- The bytes of the JSON text with a score field holding the
non-numeric string x (byte 123 is the opening brace, 125 the closing
one): 123 34 s c o r e 34 58 32 34 x 34 125. -/
def jsonBadScoreNotification : Bytes :=
  [123, 34, 115, 99, 111, 114, 101, 34, 58, 32, 34, 120, 34, 125]

/-- Fragment A of the spec's newer-wins example (ts=100, duration=30). -/
def exFragA : Fragment :=
  [(.last_brush_time, .int 100), (.last_brush_duration, .int 30)]

/-- Fragment B of the spec's newer-wins example (ts=50, duration=99). -/
def exFragB : Fragment :=
  [(.last_brush_time, .int 50), (.last_brush_duration, .int 99)]

/-- A one-field session record with the given timestamp. -/
def exSession (t : ℤ) : Fragment := [(.last_brush_time, .int t)]

/-- The empty coordinator state at first use (watermark 0, counters 0,
latch false). -/
def exState0 : CoordState := ⟨[], 0, 0, false, 0, 0⟩

/-- Cycle 1 of the spec's end-to-end example: sessions ts=[100, 200]. -/
def exCycle1 : CycleInput := ⟨[], [exSession 100, exSession 200], 0, true⟩

/-- Cycle 2 of the spec's end-to-end example: sessions ts=[150, 200, 300]. -/
def exCycle2 : CycleInput :=
  ⟨[], [exSession 150, exSession 200, exSession 300], 0, true⟩

/-- A pre-latch state whose software counter is 7. -/
def exStateSw : CoordState := ⟨[], 0, 7, false, 0, 0⟩

/-- A cycle collecting a hardware-origin usage value of 42. -/
def exCycleHw : CycleInput := ⟨[(.brush_head_usage, .int 42)], [], 0, true⟩

/-- A later cycle collecting no usage value (and no sessions). -/
def exCycleNone : CycleInput := ⟨[], [], 0, true⟩

/-- A previous snapshot carrying a scheme-type value and a battery
value, with the hardware latch already true. -/
def exSchemeState : CoordState :=
  ⟨[(.last_brush_scheme_type, .int 2), (.battery, .int 50)], 0, 0, true, 0, 0⟩

/-- A state about to flip its hardware latch: watermark 100, software
counter 3, latch false. -/
def exLatchFlipState : CoordState := ⟨[], 100, 3, false, 0, 0⟩

/-- A cycle collecting a hardware usage value whose only session is
already known (ts 50 ≤ watermark 100). -/
def exLatchFlipCycle : CycleInput :=
  ⟨[(.brush_head_usage, .int 5)], [exSession 50], 0, true⟩

/-! ## Dictionary lemmas -/

theorem find?_append' {α} (p : α → Bool) (l₁ l₂ : List α) :
    (l₁ ++ l₂).find? p =
      ((l₁.find? p).rec (l₂.find? p) (fun a => some a) : Option α) := by
  induction l₁ with
  | nil => simp
  | cons a t ih =>
    by_cases h : p a
    · simp [List.find?_cons, h]
    · simp [List.find?_cons, h, ih]

theorem fget_fmerge (b n : Fragment) (k : FieldKey) :
    fget (fmerge b n) k =
      ((fget n k).rec (fget b k) (fun v => some v) : Option Value) := by
  unfold fget fmerge
  rw [find?_append']
  cases n.find? (fun kv => decide (kv.1 = k)) <;> rfl

theorem fget_fmerge_of_some (b n : Fragment) (k : FieldKey) (v : Value)
    (h : fget n k = some v) : fget (fmerge b n) k = some v := by
  rw [fget_fmerge, h]

theorem fget_fmerge_of_none (b n : Fragment) (k : FieldKey)
    (h : fget n k = none) : fget (fmerge b n) k = fget b k := by
  rw [fget_fmerge, h]

theorem fget_fset_same (f : Fragment) (k : FieldKey) (v : Value) :
    fget (fset f k v) k = some v := by
  simp [fget, fset, List.find?_cons]

theorem find?_filter_none {α} (p q : α → Bool) (l : List α)
    (h : ∀ a, q a = true → p a = false) : (l.filter q).find? p = none := by
  induction l with
  | nil => rfl
  | cons a t ih =>
    by_cases hq : q a
    · rw [List.filter_cons_of_pos hq, List.find?_cons, h a hq]
      exact ih
    · rw [List.filter_cons_of_neg hq]
      exact ih

theorem fget_stripTimeFields_time (f : Fragment) :
    fget (stripTimeFields f) .last_brush_time = none := by
  unfold fget stripTimeFields
  rw [find?_filter_none]
  · rfl
  · intro kv hq
    simp only [decide_eq_true_eq] at hq
    simp [hq.1]

theorem fget_stripTimeFields_duration (f : Fragment) :
    fget (stripTimeFields f) .last_brush_duration = none := by
  unfold fget stripTimeFields
  rw [find?_filter_none]
  · rfl
  · intro kv hq
    simp only [decide_eq_true_eq] at hq
    simp [hq.2]

theorem fget_persistentBase (lr : Fragment) (k : FieldKey)
    (hk : k ∈ PERSISTENT_KEYS) :
    fget (persistentBase lr) k = some ((fget lr k).getD Value.null) := by
  fin_cases hk <;> rfl

theorem fget_persistentBase_scheme_type (lr : Fragment) :
    fget (persistentBase lr) .last_brush_scheme_type = none := rfl

/-! ## foldl max lemmas -/

theorem foldl_max_pull (a b : ℤ) (l : List ℤ) :
    l.foldl max (max a b) = max a (l.foldl max b) := by
  induction l generalizing b with
  | nil => rfl
  | cons c t ih =>
    show t.foldl max (max (max a b) c) = max a (t.foldl max (max b c))
    rw [max_assoc, ih]

theorem le_foldl_max (b : ℤ) (l : List ℤ) : b ≤ l.foldl max b := by
  induction l generalizing b with
  | nil => exact le_refl b
  | cons c t ih =>
    exact le_trans (le_max_left b c) (ih (max b c))

/-! ## Claim C9: poll-window matching -/

/-- C9: a window with start < end matches exactly when
start ≤ now ≤ end; a window with start > end (overnight) matches
exactly when now ≥ start or now ≤ end; with no windows configured the
window check never causes a skip; for the single window 23:00-01:00 a
poll at 00:30 is allowed and a poll at 12:00 is skipped. -/
theorem c9_poll_window_matching :
    (∀ start stop now : ℕ, start < stop →
        (in_window start stop now = true ↔ start ≤ now ∧ now ≤ stop))
    ∧ (∀ start stop now : ℕ, stop < start →
        (in_window start stop now = true ↔ now ≥ start ∨ now ≤ stop))
    ∧ (∀ (cooldownUntil nowTs : ℤ) (nowTod : ℕ),
        poll_skip_reason cooldownUntil nowTs [] nowTod ≠ some SkipReason.window)
    ∧ poll_skip_reason 0 0 [(82800, 3600)] 1800 = none
    ∧ poll_skip_reason 0 0 [(82800, 3600)] 43200 = some SkipReason.window := by
  refine ⟨?_, ?_, ?_, rfl, rfl⟩
  · intro s e n h
    simp [in_window, h]
  · intro s e n h
    have h2 : ¬s < e := by omega
    simp [in_window, h2]
  · intro cu nt now
    unfold poll_skip_reason
    by_cases h : cu ≠ 0 ∧ nt < cu
    · simp [h]
    · simp [h]

theorem c9_poll_window_matching_witness : in_window 82800 3600 1800 = true :=
  (c9_poll_window_matching.2.1 82800 3600 1800 (by decide)).mpr
    (Or.inr (by decide))

/-! ## Claim C5: extended-layout heuristic never falls back -/

/-- C5: when the extended-layout heuristic matches (byte 0 = 0,
byte 1 ≥ 32, length ≥ byte 1), _parse_info_response returns exactly the
extended parser's result — empty on its failure — and never the simple
parser's; the simple parser is attempted only when the heuristic does
not match.  (Moreover, under the heuristic the simple parser would
necessarily return empty anyway, since byte 0 = 0 encodes year 2000,
below the 2015 floor.) -/
theorem c5_no_simple_fallback_under_extended_heuristic :
    (∀ payload : Bytes, extHeuristic payload →
        parse_info_response payload = parse_extended_running_data_record payload)
    ∧ (∀ payload : Bytes, ¬extHeuristic payload →
        parse_info_response payload = parse_running_data_record payload)
    ∧ (∀ payload : Bytes, extHeuristic payload →
        parse_running_data_record payload = [])
    ∧ (extHeuristic exBadExtPayload
        ∧ parse_extended_running_data_record exBadExtPayload = []
        ∧ parse_info_response exBadExtPayload = []) := by
  refine ⟨?_, ?_, ?_, by decide, rfl, rfl⟩
  · intro p h
    unfold parse_info_response
    rw [if_pos h]
  · intro p h
    unfold parse_info_response
    rw [if_neg h]
  · intro p h
    obtain ⟨hlen, h0, h32, hle⟩ := h
    unfold parse_running_data_record
    by_cases hl : p.length < RUNNING_DATA_MIN_RECORD_SIZE
    · rw [if_pos hl]
    · rw [if_neg hl, h0]
      have hdd : device_datetime 0 (byteAt p 1) (byteAt p 2) (byteAt p 3)
          (byteAt p 4) (byteAt p 5) = none := by
        simp [device_datetime, MIN_YEAR]
      rw [hdd]

theorem c5_no_simple_fallback_witness :
    parse_info_response exBadExtPayload
      = parse_extended_running_data_record exBadExtPayload :=
  c5_no_simple_fallback_under_extended_heuristic.1 exBadExtPayload (by decide)

/-! ## Claim C4: parse_notification totality (code bug) -/

/-- C4 (code bug exhibit): on the JSON-decodable payload carrying a
non-numeric string under a recognized key, parse_notification reaches
the uncaught `int()` ValueError — the `except` clause of the JSON
fallback names only UnicodeDecodeError and json.JSONDecodeError — so
the decoder does NOT return a field mapping for every input.  The
other components of the claim hold: payloads shorter than 2 bytes,
unknown non-JSON payloads, and payloads below a format's minimum size
all yield `ok` with an empty mapping. -/
theorem c4_uncaught_int_cast_in_json_fallback :
    parse_notification 0 jsonBadScoreNotification
        = Except.error ("ValueError: invalid literal for int()")
    ∧ parse_notification 0 [3] = Except.ok []
    ∧ parse_notification 0 [170, 187, 204] = Except.ok []
    ∧ parse_notification 0 [3, 8, 1, 2, 3] = Except.ok [] :=
  ⟨rfl, rfl, rfl, rfl⟩

/-! ## Session Accumulator lemmas (claims C1 and C3) -/

/-- Case analysis of one notification_handler accumulation step. -/
theorem applyParsed_cases (st : AccState) (f : Fragment) :
    applyParsed st f =
      if ¬f.isEmpty ∧ sessTs (stripIfStale st.collected f) ≠ 0
          ∧ sessTs (stripIfStale st.collected f) ∉ st.seenTs
      then { collected := fmerge st.collected (stripIfStale st.collected f),
             seenTs := sessTs (stripIfStale st.collected f) :: st.seenTs,
             sessions := st.sessions ++ [stripIfStale st.collected f],
             eventSet := true }
      else if f.isEmpty then st
      else { st with collected := fmerge st.collected (stripIfStale st.collected f) } := by
  unfold applyParsed
  by_cases hem : f.isEmpty
  · simp [hem]
  · by_cases hc : sessTs (stripIfStale st.collected f) ≠ 0
        ∧ sessTs (stripIfStale st.collected f) ∉ st.seenTs
    · simp [hem, hc]
    · simp only [Bool.not_eq_true] at hem
      simp [hem, hc]

/-! ## Claim C1 (corrected): session materialization and dedup -/

/-- C1 counterexample: two non-empty decoded fragments carrying the
distinct timestamps 100 and then 50 materialize ONE Session, not the
two the claim requires — the newer-wins strip removes the older
fragment's timestamp before the session check, so no Session is
created for timestamp 50. -/
theorem c1_counterexample_older_fragment_creates_no_session :
    (applyParsed (applyParsed accStart exFragA) exFragB).sessions.length = 1
    ∧ ¬(applyParsed (applyParsed accStart exFragA) exFragB).sessions.length = 2 :=
  ⟨rfl, by decide⟩

/-- C1 (amended): a step of the Session Accumulator materializes a new
Session exactly for a non-empty fragment whose post-strip timestamp is
nonzero and not yet seen this cycle (a fragment whose timestamp is
older than the accumulated one is stripped and creates no Session); a
fragment repeating an already-seen timestamp creates no second Session,
and session timestamps stay pairwise distinct (invariant preservation);
concretely, feeding the same timestamp 100 twice yields one Session. -/
theorem c1_session_dedup_amended (st : AccState) (f : Fragment)
    (hInv : accInv st) :
    accInv (applyParsed st f)
    ∧ ((applyParsed st f).sessions =
        if ¬f.isEmpty ∧ sessTs (stripIfStale st.collected f) ≠ 0
            ∧ sessTs (stripIfStale st.collected f) ∉ st.seenTs
        then st.sessions ++ [stripIfStale st.collected f]
        else st.sessions)
    ∧ (applyParsed (applyParsed accStart exFragA)
        [(.last_brush_time, .int 100), (.last_brush_score, .int 9)]).sessions.length = 1 := by
  obtain ⟨hmem, hnd⟩ := hInv
  rw [applyParsed_cases]
  by_cases hc : ¬f.isEmpty ∧ sessTs (stripIfStale st.collected f) ≠ 0
      ∧ sessTs (stripIfStale st.collected f) ∉ st.seenTs
  · rw [if_pos hc]
    refine ⟨⟨?_, ?_⟩, by rw [if_pos hc], rfl⟩
    · intro s hs
      rcases List.mem_append.mp hs with hs | hs
      · exact ⟨(hmem s hs).1, List.mem_cons_of_mem _ (hmem s hs).2⟩
      · rcases List.mem_singleton.mp hs with rfl
        exact ⟨hc.2.1, List.mem_cons_self _ _⟩
    · rw [List.map_append, List.nodup_append]
      refine ⟨hnd, List.nodup_singleton _, ?_⟩
      intro x hx hx'
      rcases List.mem_singleton.mp hx' with rfl
      rcases List.mem_map.mp hx with ⟨s, hs, hts⟩
      exact hc.2.2 (hts ▸ (hmem s hs).2)
  · rw [if_neg hc]
    by_cases hem : f.isEmpty
    · rw [if_pos hem]
      exact ⟨⟨hmem, hnd⟩, by rw [if_neg hc], rfl⟩
    · rw [if_neg hem]
      exact ⟨⟨hmem, hnd⟩, by rw [if_neg hc], rfl⟩

theorem c1_session_dedup_amended_witness :
    accInv (applyParsed accStart exFragA) :=
  (c1_session_dedup_amended accStart exFragA
    ⟨fun s hs => absurd hs (List.not_mem_nil s), List.nodup_nil⟩).1

/-! ## Claim C3: newer-timestamp-wins merging -/

/-- C3: if a decoded fragment carries a last_brush_time strictly older
than the accumulated one, the fragment is merged with its
last_brush_time and last_brush_duration stripped, so the accumulated
timestamp and duration are unchanged (and no Session is added);
concretely, merging fragment A (ts=100, duration=30) and then fragment
B (ts=50, duration=99) leaves timestamp 100 and duration 30. -/
theorem c3_newer_timestamp_wins (st : AccState) (f : Fragment) (its : ℤ)
    (h1 : fget f .last_brush_time = some (.int its))
    (h2 : its < (fgetTs st.collected).getD 0) :
    ((applyParsed st f).collected = fmerge st.collected (stripTimeFields f))
    ∧ fget (applyParsed st f).collected .last_brush_time
        = fget st.collected .last_brush_time
    ∧ fget (applyParsed st f).collected .last_brush_duration
        = fget st.collected .last_brush_duration
    ∧ (applyParsed st f).sessions = st.sessions
    ∧ (fget (applyParsed (applyParsed accStart exFragA) exFragB).collected
          .last_brush_time = some (.int 100)
        ∧ fget (applyParsed (applyParsed accStart exFragA) exFragB).collected
          .last_brush_duration = some (.int 30)) := by
  have hts : fgetTs f = some its := by
    unfold fgetTs
    rw [h1]
  have hstrip : stripIfStale st.collected f = stripTimeFields f := by
    unfold stripIfStale
    rw [hts]
    exact if_pos h2
  have hne : f.isEmpty = false := by
    cases f with
    | nil => simp [fget] at h1
    | cons a t => rfl
  have htsv : sessTs (stripIfStale st.collected f) = 0 := by
    rw [hstrip]
    unfold sessTs fgetTs
    rw [fget_stripTimeFields_time]
    rfl
  rw [applyParsed_cases]
  rw [if_neg (by simp [htsv]), if_neg (by simp [hne])]
  refine ⟨by rw [hstrip], ?_, ?_, rfl, rfl, rfl⟩
  · show fget (fmerge st.collected (stripIfStale st.collected f)) .last_brush_time
        = fget st.collected .last_brush_time
    rw [hstrip]
    exact fget_fmerge_of_none _ _ _ (fget_stripTimeFields_time f)
  · show fget (fmerge st.collected (stripIfStale st.collected f)) .last_brush_duration
        = fget st.collected .last_brush_duration
    rw [hstrip]
    exact fget_fmerge_of_none _ _ _ (fget_stripTimeFields_duration f)

theorem c3_newer_timestamp_wins_witness :
    (applyParsed (applyParsed accStart exFragA) exFragB).sessions
      = (applyParsed accStart exFragA).sessions :=
  (c3_newer_timestamp_wins (applyParsed accStart exFragA) exFragB 50 rfl
    (by decide)).2.2.2.1

/-! ## Pagination lemmas (claim C8) -/

theorem paginateAux_count_le (wm : ℤ) (fuel : ℕ) (ss : List Fragment)
    (rs : List PageOutcome) : (paginateAux wm fuel ss rs).2 ≤ fuel := by
  induction fuel generalizing ss rs with
  | zero => exact le_refl 0
  | succ n ih =>
    unfold paginateAux
    by_cases hem : ss.isEmpty
    · rw [if_pos hem]
      exact Nat.zero_le _
    · rw [if_neg hem]
      by_cases hstop : sessTs (ss.getLast?.getD []) ≠ 0
          ∧ sessTs (ss.getLast?.getD []) ≤ wm
      · rw [if_pos hstop]
        exact Nat.zero_le _
      · rw [if_neg hstop]
        match rs with
        | [] => exact Nat.succ_le_succ (Nat.zero_le n)
        | none :: rest => exact Nat.succ_le_succ (Nat.zero_le n)
        | some recs :: rest =>
          show (paginateAux wm n (ss ++ recs) rest).2 + 1 ≤ n + 1
          exact Nat.succ_le_succ (ih _ _)

theorem paginateAux_nil (wm : ℤ) (fuel : ℕ) (rs : List PageOutcome) :
    (paginateAux wm fuel [] rs).2 = 0 := by
  cases fuel with
  | zero => rfl
  | succ n => rfl

theorem paginateAux_stop (wm : ℤ) (fuel : ℕ) (ss : List Fragment)
    (rs : List PageOutcome) (hem : ss.isEmpty = false)
    (h0 : sessTs (ss.getLast?.getD []) ≠ 0)
    (hle : sessTs (ss.getLast?.getD []) ≤ wm) :
    (paginateAux wm fuel ss rs).2 = 0 := by
  cases fuel with
  | zero => rfl
  | succ n =>
    unfold paginateAux
    rw [if_neg (by simp [hem]), if_pos ⟨h0, hle⟩]

theorem paginateAux_timeout (wm : ℤ) (fuel : ℕ) (ss : List Fragment)
    (rest : List PageOutcome) :
    (paginateAux wm fuel ss (none :: rest)).2 ≤ 1 := by
  cases fuel with
  | zero => exact Nat.zero_le 1
  | succ n =>
    unfold paginateAux
    by_cases hem : ss.isEmpty
    · rw [if_pos hem]
      exact Nat.zero_le 1
    · rw [if_neg hem]
      by_cases hstop : sessTs (ss.getLast?.getD []) ≠ 0
          ∧ sessTs (ss.getLast?.getD []) ≤ wm
      · rw [if_pos hstop]
        exact Nat.zero_le 1
      · rw [if_neg hstop]

theorem mem_of_getLast?_eq {α : Type} :
    ∀ (l : List α) (a : α), l.getLast? = some a → a ∈ l := by
  intro l
  induction l with
  | nil => intro a h; simp at h
  | cons b t ih =>
    intro a h
    cases t with
    | nil =>
      simp at h
      exact h ▸ List.mem_singleton_self b
    | cons c t2 =>
      rw [List.getLast?_cons_cons] at h
      exact List.mem_cons_of_mem b (ih a h)

theorem getLast_min_of_sorted :
    ∀ (l : List Fragment), l.Pairwise (fun a b => sessTs b ≤ sessTs a) →
      ∀ last, l.getLast? = some last → ∀ s ∈ l, sessTs last ≤ sessTs s := by
  intro l
  induction l with
  | nil => intro _ last h; simp at h
  | cons a t ih =>
    intro hs last hl s hmem
    rcases List.pairwise_cons.mp hs with ⟨ha, ht⟩
    cases t with
    | nil =>
      simp at hl
      rcases List.mem_singleton.mp hmem with rfl
      rw [hl]
    | cons b t2 =>
      rw [List.getLast?_cons_cons] at hl
      rcases List.mem_cons.mp hmem with rfl | hmem2
      · exact ha last (mem_of_getLast?_eq _ last hl)
      · exact ih ht last hl s hmem2

/-! ## Claim C8: bounded pagination with early termination -/

/-- C8: the pagination loop issues at most MAX_SESSION_PAGES - 1
next-page commands (so with the first page at most MAX_SESSION_PAGES
pages are fetched in a cycle); it issues none when no session has been
seen at all; it issues none once the most recently received session —
the oldest observed so far, because pages arrive newest-first, as the
last conjunct makes precise — has a nonzero timestamp ≤ the persisted
watermark (nonzero holds for every accumulator-materialized session,
claim C1); and a page whose wait times out ends the loop with no
further command. -/
theorem c8_pagination_bounds (wm : ℤ) (ss : List Fragment)
    (rs : List PageOutcome) :
    ((paginate_sessions wm ss rs).2 + 1 ≤ MAX_SESSION_PAGES)
    ∧ (ss = [] → (paginate_sessions wm ss rs).2 = 0)
    ∧ (∀ last, ss.getLast? = some last → sessTs last ≠ 0 → sessTs last ≤ wm →
        (paginate_sessions wm ss rs).2 = 0)
    ∧ (∀ rest, rs = none :: rest → (paginate_sessions wm ss rs).2 ≤ 1)
    ∧ (ss.Pairwise (fun a b => sessTs b ≤ sessTs a) →
        ∀ last, ss.getLast? = some last → ∀ s ∈ ss, sessTs last ≤ sessTs s) := by
  refine ⟨?_, ?_, ?_, ?_, ?_⟩
  · have h := paginateAux_count_le wm (MAX_SESSION_PAGES - 1) ss rs
    unfold paginate_sessions
    unfold MAX_SESSION_PAGES at h ⊢
    omega
  · intro h
    subst h
    exact paginateAux_nil wm _ rs
  · intro last hl h0 hle
    have hem : ss.isEmpty = false := by
      cases ss with
      | nil => simp at hl
      | cons a t => rfl
    have hgd : ss.getLast?.getD [] = last := by rw [hl]; rfl
    exact paginateAux_stop wm _ ss rs hem (by rw [hgd]; exact h0) (by rw [hgd]; exact hle)
  · intro rest h
    subst h
    exact paginateAux_timeout wm _ ss rest
  · exact getLast_min_of_sorted ss

theorem c8_pagination_bounds_witness :
    (paginate_sessions 5 [exSession 5] []).2 = 0 :=
  (c8_pagination_bounds 5 [exSession 5] []).2.2.1 (exSession 5) rfl
    (by decide) (by decide)

/-! ## Watermark lemmas (claim C2) -/

theorem isEmpty_eq_nil {α : Type} (l : List α) (h : l.isEmpty = true) :
    l = [] := by
  cases l with
  | nil => rfl
  | cons a t => simp [List.isEmpty] at h

theorem mem_newSessions_gt (wm : ℤ) (l : List Fragment) (x : ℤ)
    (hx : x ∈ (newSessions wm l).map sessTs) : wm < x := by
  rcases List.mem_map.mp hx with ⟨s, hs, rfl⟩
  have h := List.mem_filter.mp hs
  simpa using h.2

theorem importNewSessionsWm_eq (wm : ℤ) (l : List Fragment) :
    (importNewSessionsWm wm l true).1
      = ((newSessions wm l).map sessTs).foldl max wm := by
  unfold importNewSessionsWm
  cases hm : (newSessions wm l).map sessTs with
  | nil => rfl
  | cons t ts =>
    have ht : wm < t := mem_newSessions_gt wm l t (hm ▸ List.mem_cons_self t ts)
    have hmax : wm < ts.foldl max t := lt_of_lt_of_le ht (le_foldl_max t ts)
    show (if wm < ts.foldl max t then (ts.foldl max t, (1 : ℕ))
          else (wm, 0)).1 = (t :: ts).foldl max wm
    rw [if_pos hmax]
    show ts.foldl max t = (t :: ts).foldl max wm
    rw [List.foldl_cons, max_eq_right (le_of_lt ht)]

theorem pollReconcile_lastTs (st : CoordState) (inp : CycleInput) :
    (pollReconcile st inp).state.lastSessionTs
      = (if inp.sessions.isEmpty then st.lastSessionTs
         else (importNewSessionsWm st.lastSessionTs inp.sessions inp.recorderOk).1) := by
  unfold pollReconcile
  by_cases h : inp.sessions.isEmpty
  · simp [h]
  · simp [h]

/-! ## Claim C2: new-session classification and watermark advance -/

/-- C2: a session is "new" exactly when its timestamp strictly exceeds
the watermark captured at cycle start; after the cycle the watermark
equals the fold of max over the new sessions' timestamps seeded with
the previous watermark — i.e. max(previous, max new timestamp) — so it
never decreases; on the spec's example, watermark 0 with ts=[100, 200]
classifies both as new and yields 200, and a following cycle with
ts=[150, 200, 300] classifies only 300 as new and yields 300. -/
theorem c2_new_session_classification_and_watermark (st : CoordState)
    (inp : CycleInput) (hrec : inp.recorderOk = true) :
    ((pollReconcile st inp).state.lastSessionTs
        = ((newSessions st.lastSessionTs inp.sessions).map sessTs).foldl
            max st.lastSessionTs)
    ∧ st.lastSessionTs ≤ (pollReconcile st inp).state.lastSessionTs
    ∧ newSessions st.lastSessionTs inp.sessions
        = inp.sessions.filter (fun s => decide (st.lastSessionTs < sessTs s))
    ∧ (newSessions 0 exCycle1.sessions = exCycle1.sessions
        ∧ (pollReconcile exState0 exCycle1).state.lastSessionTs = 200
        ∧ newSessions 200 exCycle2.sessions = [exSession 300]
        ∧ (pollReconcile (pollReconcile exState0 exCycle1).state
            exCycle2).state.lastSessionTs = 300) := by
  have heq : (pollReconcile st inp).state.lastSessionTs
      = ((newSessions st.lastSessionTs inp.sessions).map sessTs).foldl
          max st.lastSessionTs := by
    rw [pollReconcile_lastTs]
    by_cases hem : inp.sessions.isEmpty
    · rw [if_pos hem, isEmpty_eq_nil inp.sessions hem]
      rfl
    · rw [if_neg hem, hrec]
      exact importNewSessionsWm_eq st.lastSessionTs inp.sessions
  refine ⟨heq, ?_, rfl, rfl, rfl, rfl, rfl⟩
  rw [heq]
  exact le_foldl_max _ _

theorem c2_new_session_classification_witness :
    (pollReconcile exState0 exCycle1).state.lastSessionTs
      = ((newSessions exState0.lastSessionTs exCycle1.sessions).map
          sessTs).foldl max exState0.lastSessionTs :=
  (c2_new_session_classification_and_watermark exState0 exCycle1 rfl).1

/-! ## Reconciler lemmas (claims C6, C7, C10) -/

theorem fget_fset_ne (f : Fragment) (k k' : FieldKey) (v : Value)
    (h : k' ≠ k) : fget (fset f k v) k' = fget f k' := by
  have hdec : (decide (k = k') : Bool) = false := decide_eq_false (Ne.symm h)
  simp [fget, fset, List.find?_cons, hdec]

theorem pollReconcile_merged_eq (st : CoordState) (inp : CycleInput) :
    (pollReconcile st inp).merged
      = fmerge (persistentBase st.lastRaw) (collectedFinal st inp) := rfl

theorem hwAfter_of_true (st : CoordState) (inp : CycleInput)
    (h : st.hwSupported = true) : hwAfter st inp = true := by
  unfold hwAfter
  rw [h]
  rfl

theorem swAfter_of_hw (st : CoordState) (inp : CycleInput)
    (h : hwAfter st inp = true) : swAfter st inp = st.swCount := by
  unfold swAfter
  rw [if_pos h]

theorem runCycles_latch_and_frozen (st : CoordState) (l : List CycleInput)
    (h : st.hwSupported = true) :
    (runCycles st l).hwSupported = true ∧ (runCycles st l).swCount = st.swCount := by
  induction l generalizing st with
  | nil => exact ⟨h, rfl⟩
  | cons i t ih =>
    have hstep : (pollReconcile st i).state.hwSupported = true :=
      hwAfter_of_true st i h
    have hsw : (pollReconcile st i).state.swCount = st.swCount :=
      swAfter_of_hw st i (hwAfter_of_true st i h)
    have hrec := ih (pollReconcile st i).state hstep
    exact ⟨hrec.1, hrec.2.trans hsw⟩

/-! ## Claim C7: hardware-counter latch -/

/-- C7: a cycle that collects a hardware usage value sets the latch;
a true latch survives one step and any sequence of later cycles, with
the software counter frozen throughout; while the (post-detection)
latch is false the software counter increments by the new-session count
and the merged snapshot surfaces it; with the latch true and no usage
collected, the merged snapshot surfaces the previous snapshot's usage
value; concretely, after collecting hw value 42 with sw counter 7, a
later empty cycle still surfaces 42 (not 7) and the counter stays 7. -/
theorem c7_hardware_counter_latch :
    (∀ (st : CoordState) (inp : CycleInput),
        (fget inp.collected .brush_head_usage).isSome = true →
        (pollReconcile st inp).state.hwSupported = true)
    ∧ (∀ (st : CoordState) (inp : CycleInput), st.hwSupported = true →
        (pollReconcile st inp).state.hwSupported = true)
    ∧ (∀ (st : CoordState) (l : List CycleInput), st.hwSupported = true →
        (runCycles st l).hwSupported = true ∧ (runCycles st l).swCount = st.swCount)
    ∧ (∀ (st : CoordState) (inp : CycleInput),
        (pollReconcile st inp).state.hwSupported = false →
        (pollReconcile st inp).state.swCount = st.swCount + newCountOf st inp
        ∧ fget (pollReconcile st inp).merged .brush_head_usage
            = some (.int ((pollReconcile st inp).state.swCount)))
    ∧ (∀ (st : CoordState) (inp : CycleInput),
        (pollReconcile st inp).state.hwSupported = true →
        fget inp.collected .brush_head_usage = none →
        fget (pollReconcile st inp).merged .brush_head_usage
          = some ((fget st.lastRaw .brush_head_usage).getD Value.null))
    ∧ ((pollReconcile exStateSw exCycleHw).state.hwSupported = true
        ∧ fget (pollReconcile exStateSw exCycleHw).merged .brush_head_usage
            = some (.int 42)
        ∧ (pollReconcile exStateSw exCycleHw).state.swCount = 7
        ∧ fget (pollReconcile (pollReconcile exStateSw exCycleHw).state
              exCycleNone).merged .brush_head_usage = some (.int 42)
        ∧ (pollReconcile (pollReconcile exStateSw exCycleHw).state
              exCycleNone).state.swCount = 7) := by
  refine ⟨?_, ?_, ?_, ?_, ?_, rfl, rfl, rfl, rfl, rfl⟩
  · intro st inp h
    show hwAfter st inp = true
    unfold hwAfter
    rw [h]
    exact Bool.or_true _
  · intro st inp h
    exact hwAfter_of_true st inp h
  · intro st l h
    exact runCycles_latch_and_frozen st l h
  · intro st inp h
    have hw : hwAfter st inp = false := h
    have hswa : (pollReconcile st inp).state.swCount
        = st.swCount + newCountOf st inp := by
      show swAfter st inp = st.swCount + newCountOf st inp
      unfold swAfter
      rw [hw]
      rfl
    refine ⟨hswa, ?_⟩
    rw [pollReconcile_merged_eq]
    have hcf : fget (collectedFinal st inp) .brush_head_usage
        = some (.int (swAfter st inp)) := by
      unfold collectedFinal collectedAfterCounter
      rw [hw]
      exact fget_fset_same _ _ _
    rw [fget_fmerge_of_some _ _ _ _ hcf]
    rfl
  · intro st inp h h2
    have hw : hwAfter st inp = true := h
    rw [pollReconcile_merged_eq]
    have hcf : fget (collectedFinal st inp) .brush_head_usage = none := by
      unfold collectedFinal collectedAfterCounter
      rw [hw]
      exact h2
    rw [fget_fmerge_of_none _ _ _ hcf]
    exact fget_persistentBase st.lastRaw .brush_head_usage (by decide)

theorem c7_hardware_counter_latch_witness :
    (pollReconcile exStateSw exCycleHw).state.hwSupported = true :=
  c7_hardware_counter_latch.1 exStateSw exCycleHw rfl

/-! ## Claim C6 (corrected): carry-forward merge -/

/-- C6 counterexample: last_brush_scheme_type is NOT in
_PERSISTENT_KEYS, so a cycle that collects nothing drops it from the
merged snapshot (while the battery value, a listed key, is kept). -/
theorem c6_counterexample_scheme_type_not_carried :
    fget exSchemeState.lastRaw .last_brush_scheme_type = some (.int 2)
    ∧ fget (pollReconcile exSchemeState exCycleNone).merged
        .last_brush_scheme_type = none
    ∧ fget (pollReconcile exSchemeState exCycleNone).merged .battery
        = some (.int 50) :=
  ⟨rfl, rfl, rfl⟩

/-- C6 (amended): on a successful cycle, each of the eleven
carry-forward fields (battery, last_brush_score, last_brush_duration,
last_brush_pressure, last_brush_time, last_brush_areas,
last_brush_pnum, brush_head_usage, model_id, hw_revision, sw_version)
that is absent from the freshly collected data keeps its previous
snapshot value, and freshly collected fields overwrite; but
last_brush_scheme_type is not carried forward — when absent this cycle
it is absent from the merged snapshot. -/
theorem c6_carry_forward_amended (st : CoordState) (inp : CycleInput) :
    (∀ k, k ∈ PERSISTENT_KEYS →
        (fget (collectedFinal st inp) k = none →
          fget (pollReconcile st inp).merged k
            = some ((fget st.lastRaw k).getD Value.null))
        ∧ (∀ v, fget (collectedFinal st inp) k = some v →
            fget (pollReconcile st inp).merged k = some v))
    ∧ (fget inp.collected .last_brush_scheme_type = none →
        fget (pollReconcile st inp).merged .last_brush_scheme_type = none) := by
  constructor
  · intro k hk
    constructor
    · intro hnone
      rw [pollReconcile_merged_eq, fget_fmerge_of_none _ _ _ hnone]
      exact fget_persistentBase st.lastRaw k hk
    · intro v hv
      rw [pollReconcile_merged_eq]
      exact fget_fmerge_of_some _ _ _ _ hv
  · intro h
    have hcf : fget (collectedFinal st inp) .last_brush_scheme_type = none := by
      unfold collectedFinal collectedAfterCounter
      by_cases hw : hwAfter st inp
      · rw [if_pos hw]
        exact h
      · rw [if_neg hw]
        rw [fget_fset_ne _ _ _ _ (by decide)]
        exact h
    rw [pollReconcile_merged_eq, fget_fmerge_of_none _ _ _ hcf]
    exact fget_persistentBase_scheme_type st.lastRaw

theorem c6_carry_forward_amended_witness :
    fget (pollReconcile exSchemeState exCycleNone).merged .battery
      = some ((fget exSchemeState.lastRaw .battery).getD Value.null) :=
  ((c6_carry_forward_amended exSchemeState exCycleNone).1 .battery
    (by decide)).1 rfl

/-! ## Claim C10 (corrected): persistence on mutation -/

/-- C10 counterexample: this cycle changes the durable
brush_head_hw_supported latch from false to true yet performs no save
— _poll_device saves only from the watermark update and the software
counter increment. -/
theorem c10_counterexample_latch_change_without_save :
    exLatchFlipState.hwSupported = false
    ∧ (pollReconcile exLatchFlipState exLatchFlipCycle).state.hwSupported = true
    ∧ (pollReconcile exLatchFlipState exLatchFlipCycle).saves = 0 :=
  ⟨rfl, rfl, rfl⟩

theorem importNewSessionsWm_save_iff (wm : ℤ) (l : List Fragment) (r : Bool) :
    ((importNewSessionsWm wm l r).2 = 0 ∧ (importNewSessionsWm wm l r).1 = wm)
    ∨ ((importNewSessionsWm wm l r).2 = 1 ∧ (importNewSessionsWm wm l r).1 ≠ wm) := by
  unfold importNewSessionsWm
  cases hm : (newSessions wm l).map sessTs with
  | nil => exact Or.inl ⟨rfl, rfl⟩
  | cons t ts =>
    cases r with
    | false => exact Or.inl ⟨rfl, rfl⟩
    | true =>
      by_cases h : wm < ts.foldl max t
      · refine Or.inr ⟨?_, ?_⟩
        · show (if wm < ts.foldl max t then (ts.foldl max t, (1 : ℕ))
              else (wm, 0)).2 = 1
          rw [if_pos h]
        · show (if wm < ts.foldl max t then (ts.foldl max t, (1 : ℕ))
              else (wm, 0)).1 ≠ wm
          rw [if_pos h]
          omega
      · refine Or.inl ⟨?_, ?_⟩
        · show (if wm < ts.foldl max t then (ts.foldl max t, (1 : ℕ))
              else (wm, 0)).2 = 0
          rw [if_neg h]
        · show (if wm < ts.foldl max t then (ts.foldl max t, (1 : ℕ))
              else (wm, 0)).1 = wm
          rw [if_neg h]

theorem swSave_iff (st : CoordState) (inp : CycleInput) :
    ((if ¬hwAfter st inp = true ∧ 0 < newCountOf st inp then (1 : ℕ) else 0) = 0
      ∧ swAfter st inp = st.swCount)
    ∨ ((if ¬hwAfter st inp = true ∧ 0 < newCountOf st inp then (1 : ℕ) else 0) = 1
      ∧ swAfter st inp ≠ st.swCount) := by
  have hnc : (0 : ℤ) ≤ newCountOf st inp := Int.natCast_nonneg _
  by_cases hw : hwAfter st inp = true
  · refine Or.inl ⟨?_, swAfter_of_hw st inp hw⟩
    rw [if_neg (fun hc => hc.1 hw)]
  · have hsw : swAfter st inp = st.swCount + newCountOf st inp := by
      unfold swAfter
      rw [if_neg hw]
    by_cases hpos : 0 < newCountOf st inp
    · refine Or.inr ⟨?_, ?_⟩
      · rw [if_pos ⟨hw, hpos⟩]
      · rw [hsw]
        omega
    · refine Or.inl ⟨?_, ?_⟩
      · rw [if_neg (fun hc => hpos hc.2)]
      · rw [hsw]
        omega

/-- C10 (amended): a poll cycle performs a save exactly when it
advances last_session_ts or increments the software brush-head counter;
a cycle that mutates neither performs no save — in particular a change
to the brush_head_hw_supported latch alone (or to the in-memory
cooldown_until, which _save_store does not persist at all) triggers no
save. -/
theorem c10_save_iff_mutation_amended (st : CoordState) (inp : CycleInput) :
    0 < (pollReconcile st inp).saves
      ↔ ((pollReconcile st inp).state.lastSessionTs ≠ st.lastSessionTs
          ∨ (pollReconcile st inp).state.swCount ≠ st.swCount) := by
  have hts := pollReconcile_lastTs st inp
  have hsw : (pollReconcile st inp).state.swCount = swAfter st inp := rfl
  have hsaves : (pollReconcile st inp).saves
      = (if inp.sessions.isEmpty then (st.lastSessionTs, (0 : ℕ))
         else importNewSessionsWm st.lastSessionTs inp.sessions inp.recorderOk).2
        + (if ¬hwAfter st inp = true ∧ 0 < newCountOf st inp then 1 else 0) := rfl
  rw [hsaves, hts, hsw]
  by_cases hem : inp.sessions.isEmpty
  · rw [if_pos hem, if_pos hem]
    rcases swSave_iff st inp with ⟨hb, ha⟩ | ⟨hb, ha⟩
    · rw [hb, ha]
      simp
    · rw [hb]
      simp [ha]
  · rw [if_neg hem, if_neg hem]
    rcases importNewSessionsWm_save_iff st.lastSessionTs inp.sessions
        inp.recorderOk with ⟨h2, h1⟩ | ⟨h2, h1⟩ <;>
      rcases swSave_iff st inp with ⟨hb, ha⟩ | ⟨hb, ha⟩
    · rw [h2, h1, hb, ha]
      simp
    · rw [h2, h1, hb]
      simp [ha]
    · rw [h2, hb, ha]
      simp [h1]
    · rw [h2, hb]
      simp [h1]

end Oclean
